import Mathlib

/-!
Verification of the gemini-cli-api repository (Python) against its
natural-language specification.

Strings are modelled as `List Char`; Python byte/str values in the relevant
code paths are ASCII plus a handful of Unicode box-drawing characters, so
per-character modelling is faithful.  Python `str.strip()` is modelled over
the ASCII whitespace characters it removes; `str.lower()` is modelled as
ASCII lowercasing (the deny-list substrings it is compared against are all
ASCII).
-/

/-! ## Basic string model (Python str operations over List Char) -/

/-- Whitespace characters removed by Python `str.strip()` (ASCII range). -/
def pyWs (c : Char) : Bool :=
  c = ' ' || c = '\t' || c = '\n' || c = '\r' || c = Char.ofNat 11 || c = Char.ofNat 12

/-- Python `s.strip()`: drop leading and trailing whitespace. -/
def pyStrip (l : List Char) : List Char :=
  ((l.dropWhile pyWs).reverse.dropWhile pyWs).reverse

/-- Python `"\n".join(xs)`. -/
def joinNL (xs : List (List Char)) : List Char :=
  match xs with
  | [] => []
  | [x] => x
  | x :: y :: rest => x ++ '\n' :: joinNL (y :: rest)

/-- Concatenation of a list of strings (Python `"".join(xs)`). -/
def joinAll (xs : List (List Char)) : List Char :=
  match xs with
  | [] => []
  | x :: rest => x ++ joinAll rest

/-- Does `p` occur at the start of `l`? -/
def startsWithL (p l : List Char) : Bool :=
  match p, l with
  | [], _ => true
  | _ :: _, [] => false
  | a :: ps, b :: ls => a = b && startsWithL ps ls

/-- Python `needle in haystack`: substring containment. -/
def containsSub (needle haystack : List Char) : Bool :=
  match haystack with
  | [] => startsWithL needle []
  | _ :: rest => startsWithL needle haystack || containsSub needle rest

/-- Python `s.replace(pat, repl)`: leftmost, non-overlapping replacement.
An empty pattern leaves the string unchanged (the code only ever replaces
with the empty string, for which Python agrees). -/
def pyReplaceAux (pat repl : List Char) : Nat → List Char → List Char
  | 0, l => l
  | _ + 1, [] => []
  | n + 1, c :: rest =>
    if startsWithL pat (c :: rest) && !pat.isEmpty then
      repl ++ pyReplaceAux pat repl n (rest.drop (pat.length - 1))
    else
      c :: pyReplaceAux pat repl n rest

def pyReplace (pat repl l : List Char) : List Char :=
  pyReplaceAux pat repl l.length l

/-- Python `s.split('\n')`: split on every newline, keeping empty pieces. -/
def splitNL : List Char → List (List Char)
  | [] => [[]]
  | c :: rest =>
    if c = '\n' then [] :: splitNL rest
    else
      match splitNL rest with
      | h :: t => (c :: h) :: t
      | [] => [[c]]

/-- ASCII lowercasing, matching Python `str.lower()` on the ASCII range. -/
def toLowerL (l : List Char) : List Char :=
  l.map fun c => if 'A' ≤ c ∧ c ≤ 'Z' then Char.ofNat (c.toNat + 32) else c

deriving instance DecidableEq for Except

/-! ## ProcessPool (src/app/services/process_pool.py)

`ProcessPool.initialize_pool` loops `i` over `range(pool_size)`, starts a
worker per iteration, and on success appends the worker to `self.processes`
and puts it on the `available_processes` queue; start failures are logged
and skipped.  After the loop it raises `RuntimeError` when `self.processes`
is empty.  Workers are modelled by their loop index; `startOk i` says
whether the i-th `process.start()` succeeds. -/

structure PoolState where
  poolSize : Nat
  processes : List Nat
  available : List Nat

deriving DecidableEq

inductive PoolError
  /-- RuntimeError: no gemini CLI processes could be started. -/
  | noProcessesStarted

deriving DecidableEq

/-- The `for i in range(self.pool_size)` loop of `initialize_pool`. -/
def initPoolLoop (startOk : Nat → Bool) :
    List Nat → List Nat → List Nat → List Nat × List Nat
  | [], procs, avail => (procs, avail)
  | i :: is, procs, avail =>
    if startOk i then initPoolLoop startOk is (procs ++ [i]) (avail ++ [i])
    else initPoolLoop startOk is procs avail

/-- Embeds `ProcessPool.initialize_pool` (process_pool.py lines 16-34). -/
def initPool (poolSize : Nat) (startOk : Nat → Bool) :
    Except PoolError PoolState :=
  let pa := initPoolLoop startOk (List.range poolSize) [] []
  if pa.1 = [] then .error .noProcessesStarted
  else .ok ⟨poolSize, pa.1, pa.2⟩

/-- Embeds `ProcessPool.release_process`: put the worker back on the
available queue (process_pool.py lines 46-51). -/
def releaseProcess (st : PoolState) (w : Nat) : PoolState :=
  ⟨st.poolSize, st.processes, st.available ++ [w]⟩

/-! ## GeminiCLIProcess.execute_command (src/app/services/gemini_cli.py)

The command/response protocol is modelled over an abstract trace of the
subprocess's standard-output reads.  Each `readline` (wrapped in
`asyncio.wait_for(..., timeout)`) either returns a line, returns empty
bytes (end-of-stream), or times out; a timeout event carries the
environment's answer to the subsequent 1-second-bounded `stderr.read()`
(the time at which stderr data would become ready, and that data).

A faithfulness note that shapes the whole model: after buffering or
yielding a non-delimiter line, the code enters its opportunistic stderr
drain, whose first step is `stderr_chunk = self.process.stderr.read(1024)`
WITHOUT `await`.  On an `asyncio.StreamReader` this produces a coroutine
object, which is truthy, and the following `stderr_chunk.decode('utf-8')`
raises `AttributeError` (only `BlockingIOError` is caught there).  The
read loop therefore never reaches a second `readline`: every iteration
that processes a non-delimiter content line aborts the command.  The
`except Exception` block at the bottom of `execute_command` then drains
the pipes with `communicate()` (bounded by 1 second; in streaming mode the
drained output is yielded) and re-raises the original exception. -/

inductive RdEvent
  /-- `readline` returned this (decoded) line. -/
  | line (raw : List Char)
  /-- `readline` returned empty bytes: end-of-stream. -/
  | eof
  /-- `readline` timed out; stderr data `sd` would be ready after
  `readyAt` seconds for the subsequent bounded stderr read. -/
  | stdoutTimeout (readyAt : Nat) (sd : List Char)

/-- Which subprocess-lifecycle actions a call performed. -/
structure ProcActions where
  killed : Bool
  terminated : Bool

deriving DecidableEq

def noProcActions : ProcActions := ⟨false, false⟩

/-- Embeds `GeminiCLIProcess.stop` (gemini_cli.py lines 166-181): always
terminates (SIGTERM); kills only when the 5-second graceful wait expires. -/
def stopProcessActions (exitsWithinGrace : Bool) : ProcActions :=
  ⟨!exitsWithinGrace, true⟩

inductive ExecError
  /-- RuntimeError: process is not running or has terminated (line 53). -/
  | notRunning
  /-- TimeoutError carrying the timeout value (line 110), with the
  stderr text captured by the best-effort bounded drain, if any. -/
  | commandTimeout (secs : Nat) (diagStderr : Option (List Char))
  /-- AttributeError from the un-awaited `stderr.read(1024)` (line 119). -/
  | attrErrorNoDecode
  /-- Model artifact: the event trace ended while a readline was pending. -/
  | incompleteTrace

deriving DecidableEq

/-- Result of one `execute_command` call: the pairs the async generator
yielded, the exception it raised (if any), and the lifecycle actions it
performed on the subprocess. -/
structure ExecOutcome where
  yields : List (List Char × List Char)
  error : Option ExecError
  actions : ProcActions

deriving DecidableEq

inductive LoopExit
  | broke
  | timedOut (readyAt : Nat) (sd : List Char)
  | attrErr
  | starved

deriving DecidableEq

/-- `asyncio.wait_for(self.process.stderr.read(), timeout=1)` (line 103). -/
def STDERR_DRAIN_BOUND : Nat := 1

/-- The `while True` read loop of `execute_command` (lines 70-130).
Returns the stdout buffer, the chunks yielded so far (streaming mode), and
how the loop ended.  It never recurses: a processed non-delimiter line
falls into the stderr drain, which raises (see the module comment). -/
def execLoop (d : List Char) (stream : Bool) :
    List RdEvent → List (List Char) → List (List Char × List Char) →
      List (List Char) × List (List Char × List Char) × LoopExit
  | [], buf, ys => (buf, ys, .starved)
  | .eof :: _, buf, ys => (buf, ys, .broke)
  | .stdoutTimeout r sd :: _, buf, ys => (buf, ys, .timedOut r sd)
  | .line raw :: _, buf, ys =>
    -- decoded_line = line.decode('utf-8').strip() is pyStrip raw;
    -- content_before_delimiter = decoded_line.replace(delimiter, '').strip()
    if containsSub d (pyStrip raw) then
      if (pyStrip (pyReplace d [] (pyStrip raw))).isEmpty then (buf, ys, .broke)
      else if stream then
        (buf, ys ++ [(pyStrip (pyReplace d [] (pyStrip raw)), [])], .broke)
      else (buf ++ [pyStrip (pyReplace d [] (pyStrip raw))], ys, .broke)
    else
      if stream then (buf, ys ++ [(pyStrip raw, [])], .attrErr)
      else (buf ++ [pyStrip raw], ys, .attrErr)

/-- The `communicate()` fallback of the exception handler (lines 135-151):
in streaming mode each non-empty drained pipe is yielded (stripped). -/
def commYields : Option (List Char × List Char) → List (List Char × List Char)
  | none => []
  | some (so, se) =>
    (if so.isEmpty then [] else [(pyStrip so, [])]) ++
    (if se.isEmpty then [] else [([], pyStrip se)])

/-- Embeds `GeminiCLIProcess.execute_command` (gemini_cli.py lines 45-164).
`running` is the `self.process and returncode is None` precondition;
`comm` is what `communicate()` would drain within its 1-second bound on an
exception path (`none` when it times out).  On normal completion in
non-streaming mode the single final yield is
`("\n".join(stdout_buffer).strip(), "\n".join(stderr_buffer).strip())`;
`stderr_buffer` is only ever appended on paths that re-raise, so it is
empty here. -/
def executeCommand (d : List Char) (running : Bool) (stream : Bool)
    (tSecs : Nat) (events : List RdEvent)
    (comm : Option (List Char × List Char)) : ExecOutcome :=
  if running then
    match execLoop d stream events [] [] with
    | (buf, ys, .broke) =>
      if stream then ⟨ys, none, noProcActions⟩
      else ⟨ys ++ [(pyStrip (joinNL buf), pyStrip (joinNL []))], none, noProcActions⟩
    | (_, ys, .timedOut r sd) =>
      ⟨if stream then ys ++ commYields comm else ys,
       some (.commandTimeout tSecs
         (if r ≤ STDERR_DRAIN_BOUND && !sd.isEmpty then some (pyStrip sd) else none)),
       noProcActions⟩
    | (_, ys, .attrErr) =>
      ⟨if stream then ys ++ commYields comm else ys, some .attrErrorNoDecode,
       noProcActions⟩
    | (_, ys, .starved) => ⟨ys, some .incompleteTrace, noProcActions⟩
  else ⟨[], some .notRunning, noProcActions⟩

/-- A concrete delimiter token of the shape generated in `__init__`. -/
def delim0 : List Char :=
  "---END_OF_GEMINI_OUTPUT_1c15dead-beef-4000-8000-000000000000---".toList

/-- The stdout lines `execute_command` buffers, read off the event trace:
each whitespace-stripped line before the delimiter line, plus the stripped
residue of the delimiter line when non-empty. -/
def claimBufferedLines (d : List Char) : List RdEvent → List (List Char)
  | [] => []
  | .eof :: _ => []
  | .stdoutTimeout _ _ :: _ => []
  | .line raw :: rest =>
    if containsSub d (pyStrip raw) then
      if (pyStrip (pyReplace d [] (pyStrip raw))).isEmpty then []
      else [pyStrip (pyReplace d [] (pyStrip raw))]
    else pyStrip raw :: claimBufferedLines d rest

/-! ## Output sanitizer (src/output_comparison.py)

`advanced_ansi_cleaning` applies `re.sub(pattern, '', text)` for eight
ANSI patterns in order, then a catch-all fallback.  Each pattern begins
with the escape character and never matches the empty string, so
`re.sub` is a single left-to-right scan: at each position, if the pattern
matches (Python semantics: leftmost match, greedy quantifiers), the match
is removed and scanning resumes after it (removed-induced adjacencies are
NOT rescanned); otherwise the character is kept.  Every character class
pair adjacent under a greedy star in these patterns is disjoint from what
follows, so greedy matching needs no backtracking and each matcher below
is the exact match length. -/

def escChar : Char := '\x1b'

/-- Number of leading characters of `l` satisfying `p`. -/
def runLen (p : Char → Bool) (l : List Char) : Nat :=
  (l.takeWhile p).length

/-- Character-class membership by code point range. -/
def inCc (lo hi : Nat) (c : Char) : Bool :=
  lo ≤ c.toNat && c.toNat ≤ hi

/-- `[0-9;]`, the parameter class of the color patterns. -/
def isParamC (c : Char) : Bool :=
  inCc 0x30 0x39 c || c = ';'

/-- `[0-9]`. -/
def isDigitC (c : Char) : Bool :=
  inCc 0x30 0x39 c

/-- A matcher returns `some k` when the pattern matches `k + 1` characters
at the head of the input (every pattern consumes at least the leading
escape character), `none` when it does not match there. -/
def mGuard (core : List Char → Option Nat) : List Char → Option Nat
  | [] => none
  | c :: rest => if c = escChar then core rest else none

/-- After the escape: branch `[@-Z\\-_]`, or `[` then `[0-?]*`, then the
class from space to slash starred, then `[@-~]` (pattern 1, the standard
ANSI escape). -/
def m1core : List Char → Option Nat
  | [] => none
  | c :: rest =>
    if inCc 0x40 0x5A c || inCc 0x5C 0x5F c then some 1
    else if c = '[' then
      match (rest.dropWhile (inCc 0x30 0x3F)).dropWhile (inCc 0x20 0x2F) with
      | f :: _ =>
        if inCc 0x40 0x7E f then
          some (2 + runLen (inCc 0x30 0x3F) rest +
            runLen (inCc 0x20 0x2F) (rest.dropWhile (inCc 0x30 0x3F)))
        else none
      | [] => none
    else none

/-- After the escape: `\[[0-9;]*m` (pattern 2, color codes). -/
def m2core : List Char → Option Nat
  | [] => none
  | c :: rest =>
    if c = '[' then
      match rest.dropWhile isParamC with
      | f :: _ => if f = 'm' then some (2 + runLen isParamC rest) else none
      | [] => none
    else none

/-- After the escape: `\[38;2;[0-9;]*m` (pattern 3, 24-bit RGB). -/
def m3core : List Char → Option Nat
  | '[' :: '3' :: '8' :: ';' :: '2' :: ';' :: rest =>
    (match rest.dropWhile isParamC with
     | f :: _ => if f = 'm' then some (7 + runLen isParamC rest) else none
     | [] => none)
  | _ => none

/-- After the escape: `\[[0-9]*[A-Z]` (pattern 4, cursor movement). -/
def m4core : List Char → Option Nat
  | [] => none
  | c :: rest =>
    if c = '[' then
      match rest.dropWhile isDigitC with
      | f :: _ => if inCc 0x41 0x5A f then some (2 + runLen isDigitC rest) else none
      | [] => none
    else none

/-- After the escape: `\[[0-9]*[a-z]` (pattern 5, other sequences). -/
def m5core : List Char → Option Nat
  | [] => none
  | c :: rest =>
    if c = '[' then
      match rest.dropWhile isDigitC with
      | f :: _ => if inCc 0x61 0x7A f then some (2 + runLen isDigitC rest) else none
      | [] => none
    else none

/-- After the escape: `\[2K` (pattern 6, clear line). -/
def m6core : List Char → Option Nat
  | '[' :: '2' :: 'K' :: _ => some 3
  | _ => none

/-- After the escape: `\[1A` (pattern 7, cursor up). -/
def m7core : List Char → Option Nat
  | '[' :: '1' :: 'A' :: _ => some 3
  | _ => none

/-- After the escape: `\[G` (pattern 8, cursor to column 1). -/
def m8core : List Char → Option Nat
  | '[' :: 'G' :: _ => some 2
  | _ => none

/-- After the escape: `\[[^m]*m?` (the catch-all fallback): everything up
to and including the first `m`, or to end of input when no `m` follows. -/
def mFbCore : List Char → Option Nat
  | [] => none
  | c :: rest =>
    if c = '[' then
      match rest.dropWhile (fun x => x != 'm') with
      | [] => some (1 + runLen (fun x => x != 'm') rest)
      | _ :: _ => some (2 + runLen (fun x => x != 'm') rest)
    else none

/-- `re.sub(pattern, '', _)` as a single scan (fuel-indexed so that it is
structurally recursive; the fuel is always at least the input length). -/
def subAux (m : List Char → Option Nat) : Nat → List Char → List Char
  | 0, l => l
  | _ + 1, [] => []
  | n + 1, c :: rest =>
    match m (c :: rest) with
    | some k => subAux m n (rest.drop k)
    | none => c :: subAux m n rest

def reSub (m : List Char → Option Nat) (l : List Char) : List Char :=
  subAux m l.length l

/-- The eight ordered patterns of the `ansi_patterns` list. -/
def ansiPatternCores : List (List Char → Option Nat) :=
  [m1core, m2core, m3core, m4core, m5core, m6core, m7core, m8core]

/-- Embeds `advanced_ansi_cleaning` (output_comparison.py lines 24-43):
the eight patterns applied in order, then the catch-all fallback. -/
def advanced_ansi_cleaning (l : List Char) : List Char :=
  reSub (mGuard mFbCore)
    (ansiPatternCores.foldl (fun acc core => reSub (mGuard core) acc) l)

/-- The UI-decoration characters filtered by `smart_content_extraction`. -/
def uiChars : List Char := ['╭', '╰', '│', '░', '█']

/-- The boilerplate deny-list of `smart_content_extraction`. -/
def skipPatterns : List (List Char) :=
  ["tips for getting started".toList,
   "ask questions, edit files".toList,
   "be specific for the best".toList,
   "retry backoff:".toList,
   "/help for more information".toList]

/-- The per-line keep condition of `smart_content_extraction` (the line is
already stripped). -/
def keepLine (l : List Char) : Bool :=
  !l.isEmpty &&
  !(uiChars.any fun c => l.contains c) &&
  !(skipPatterns.any fun p => containsSub p (toLowerL l))

/-- Embeds `smart_content_extraction` (output_comparison.py lines 45-81). -/
def smart_content_extraction (l : List Char) : List Char :=
  joinNL (((splitNL (advanced_ansi_cleaning l)).map pyStrip).filter keepLine)

/-! ## Stream chunker (src/app/services/gemini_simple.py lines 110-149)

`execute_prompt_stream` accumulates stdout reads into a buffer; after each
read it splits the buffer on newlines, keeps the (possibly incomplete)
last piece as the new buffer, and yields each earlier piece stripped when
it has non-whitespace content.  A read of empty bytes means end-of-stream:
the loop breaks and any remaining buffered content with non-whitespace is
flushed, stripped, as a final fragment.  The timeout bookkeeping around
the loop does not alter which fragments are yielded, so the model takes
the successful data reads as the trace (the trace ending, or an empty
read, models stream end). -/

/-- The end-of-loop flush: `if buffer.strip(): yield buffer.strip()`. -/
def chunkFlush (buf : List Char) : List (List Char) :=
  if (pyStrip buf).isEmpty then [] else [pyStrip buf]

/-- The read loop of `execute_prompt_stream`, processing the decoded data
chunks in order with the current buffer. -/
def chunkerRun (buf : List Char) : List (List Char) → List (List Char)
  | [] => chunkFlush buf
  | c :: cs =>
    if c.isEmpty then chunkFlush buf
    else
      (((splitNL (buf ++ c)).dropLast.map pyStrip).filter fun l => !l.isEmpty) ++
        chunkerRun ((splitNL (buf ++ c)).getLastD []) cs

/-- The fragments `execute_prompt_stream` yields for a given read trace. -/
def execute_prompt_stream_chunks (cs : List (List Char)) : List (List Char) :=
  chunkerRun [] cs

/-! ## Chat-completions handler (src/app/main.py lines 145-256)

The handler sets `process = None`, then inside `try` acquires a worker and
runs the request; dedicated `except` clauses convert `TimeoutError` to
HTTP 504 and `RuntimeError`/any `Exception` to HTTP 500; the `finally`
clause releases the worker back to the pool exactly when one was acquired.
The environment captures the outcome of each awaited step.  (Line 147 of
main.py references `uuid` without importing it; the resulting `NameError`
occurs before the worker is acquired, so it is one more instance of the
acquisition failing — covered by `acquired = none` — and cannot leak a
worker.  In the streaming branch the handler returns a `StreamingResponse`
immediately, so the `finally` clause releases the worker before the
response generator runs — still exactly one release.) -/

inductive HandlerExc
  | timeoutErr
  | runtimeErr
  | httpExc (code : Nat)
  | otherExc

deriving DecidableEq

/-- Outcomes of the awaited steps inside the handler body. -/
structure HandlerEnv where
  /-- `await process_pool.acquire_process()`: the worker, or `none` when
  the handler fails before or during acquisition. -/
  acquired : Option Nat
  streamReq : Bool
  clearResult : Except HandlerExc (List Char × List Char)
  promptResult : Except HandlerExc (List Char × List Char)
  statsResult : Except HandlerExc (List Char × List Char)
  /-- whether `dump_debug_info` on the success path raises (file I/O). -/
  dumpRaises : Bool

inductive HandlerResp
  | streamingResp
  | jsonResp

deriving DecidableEq

structure HandlerOutcome where
  /-- the workers passed to `release_process`, in call order. -/
  releases : List Nat
  response : Except HandlerExc HandlerResp

deriving DecidableEq

/-- The body of the `try` block after acquisition (clear history, prompt,
raise on prompt stderr, stats, dump, respond); stderr from `/clear` and
`/stats` only logs warnings. -/
def chatCompletionsBody (env : HandlerEnv) : Except HandlerExc HandlerResp :=
  if env.streamReq then .ok .streamingResp
  else
    match env.clearResult with
    | .error e => .error e
    | .ok _ =>
      match env.promptResult with
      | .error e => .error e
      | .ok pr =>
        if !pr.2.isEmpty then .error (.httpExc 500)
        else
          match env.statsResult with
          | .error e => .error e
          | .ok _ =>
            if env.dumpRaises then .error .otherExc
            else .ok .jsonResp

/-- The `except` clauses of the handler: `TimeoutError` becomes HTTP 504,
`RuntimeError` HTTP 500, and any other `Exception` (including the
handler's own `HTTPException`) HTTP 500. -/
def handlerExcToHttp : HandlerExc → HandlerExc
  | .timeoutErr => .httpExc 504
  | .runtimeErr => .httpExc 500
  | .httpExc _ => .httpExc 500
  | .otherExc => .httpExc 500

/-- Embeds `chat_completions` of src/app/main.py: try body, except
conversion, and the `finally` release of the acquired worker. -/
def chat_completions (env : HandlerEnv) : HandlerOutcome :=
  match env.acquired with
  | none => ⟨[], .error (.httpExc 500)⟩
  | some w =>
    ⟨[w],
     match chatCompletionsBody env with
     | .ok r => .ok r
     | .error e => .error (handlerExcToHttp e)⟩

/-! ## Simplified handler (src/app/main_simple.py lines 149-262)

Inside its `try` block the handler raises `HTTPException(503)` when the
CLI wrapper is missing, raises `HTTPException(400, "No user message found
in request")` when the newline-joined user-message concatenation strips to
empty, returns a `StreamingResponse` for streaming requests, and otherwise
awaits `gemini_cli.execute_prompt`.  The blanket `except Exception` at the
bottom catches every exception raised in the body — including the
handler's own `HTTPException`s — and re-raises: 504 for `TimeoutError`,
503 when `str(e).lower()` contains "not found", else 500.  `str` of a
starlette `HTTPException` is "code: detail" (older versions yield just the
detail); neither contains "not found" for the texts above. -/

inductive SimpleExc
  | httpExc (code : Nat) (detail : List Char)
  | timeoutExc (msg : List Char)
  | cliExc (msg : List Char)

deriving DecidableEq

structure SimpleMsg where
  role : List Char
  content : List Char

deriving DecidableEq

structure SimpleReq where
  model : List Char
  messages : List SimpleMsg
  stream : Bool

deriving DecidableEq

/-- `"\n".join(msg.content for msg in messages if msg.role == "user")`. -/
def fullPromptOf (req : SimpleReq) : List Char :=
  joinNL ((req.messages.filter fun m => m.role == "user".toList).map
    fun m => m.content)

/-- Python `str(e)` for the modelled exceptions. -/
def strOfSimpleExc : SimpleExc → List Char
  | .httpExc code detail => (Nat.repr code).toList ++ ": ".toList ++ detail
  | .timeoutExc m => m
  | .cliExc m => m

def isTimeoutSimpleExc : SimpleExc → Bool
  | .timeoutExc _ => true
  | _ => false

/-- The `except Exception` clause (main_simple.py lines 239-262): choose
the HTTP status the handler re-raises with. -/
def simpleExcStatus (e : SimpleExc) : Nat :=
  if isTimeoutSimpleExc e then 504
  else if containsSub ("not found".toList) (toLowerL (strOfSimpleExc e)) then 503
  else 500

inductive SimpleResp
  | streamingResp
  | jsonResp (content : List Char)

deriving DecidableEq

structure SimpleOutcome where
  /-- `.error code`: the handler raised `HTTPException(code)`. -/
  status : Except Nat SimpleResp
  /-- whether `gemini_cli.execute_prompt` was awaited. -/
  cliInvoked : Bool

deriving DecidableEq

/-- Embeds `chat_completions` of src/app/main_simple.py for non-streaming
control flow; `execResult` is what `execute_prompt` would produce. -/
def chat_completions_simple (cliAvailable : Bool) (req : SimpleReq)
    (execResult : Except SimpleExc (List Char)) : SimpleOutcome :=
  if !cliAvailable then
    ⟨.error (simpleExcStatus
        (.httpExc 503 ("Gemini CLI service not available".toList))), false⟩
  else if (pyStrip (fullPromptOf req)).isEmpty then
    ⟨.error (simpleExcStatus
        (.httpExc 400 ("No user message found in request".toList))), false⟩
  else if req.stream then ⟨.ok .streamingResp, false⟩
  else
    match execResult with
    | .ok content => ⟨.ok (.jsonResp content), true⟩
    | .error e => ⟨.error (simpleExcStatus e), true⟩

/-! ## Theorems -/

theorem initPoolLoop_spec (startOk : Nat → Bool) :
    ∀ (l procs avail : List Nat),
      initPoolLoop startOk l procs avail =
        (procs ++ l.filter startOk, avail ++ l.filter startOk) := by
  intro l
  induction l with
  | nil => intro procs avail; simp [initPoolLoop]
  | cons i is ih =>
    intro procs avail
    by_cases h : startOk i
    · simp [initPoolLoop, h, ih, List.filter_cons]
    · simp [initPoolLoop, h, ih, List.filter_cons]

/-- C5: pool initialization fails iff zero workers start; with at least one
success it returns a pool whose available queue holds exactly the started
workers (reduced capacity). -/
theorem initPool_fails_iff_zero_started (poolSize : Nat) (startOk : Nat → Bool) :
    (initPool poolSize startOk = .error .noProcessesStarted ↔
      ((List.range poolSize).filter startOk).length = 0) ∧
    (∀ st, initPool poolSize startOk = .ok st →
      st.available.length = ((List.range poolSize).filter startOk).length ∧
      1 ≤ st.available.length) := by
  constructor
  · constructor
    · intro h
      simp only [initPool, initPoolLoop_spec, List.nil_append] at h
      by_cases hf : (List.range poolSize).filter startOk = []
      · simp [hf]
      · simp [hf] at h
    · intro h
      have hf : (List.range poolSize).filter startOk = [] := List.length_eq_zero.mp h
      simp [initPool, initPoolLoop_spec, hf]
  · intro st h
    simp only [initPool, initPoolLoop_spec, List.nil_append] at h
    by_cases hf : (List.range poolSize).filter startOk = []
    · simp [hf] at h
    · simp only [hf, if_neg, ite_false] at h
      have hst : st = ⟨poolSize, (List.range poolSize).filter startOk,
          (List.range poolSize).filter startOk⟩ := by
        cases h' : initPool poolSize startOk <;>
          simp_all [initPool, initPoolLoop_spec, hf]
      subst hst
      refine ⟨rfl, ?_⟩
      have : 0 < ((List.range poolSize).filter startOk).length :=
        List.length_pos.mpr hf
      simpa using this

/-- Witness for C5: capacity 3 with only the third start succeeding still
yields a pool of effective capacity 1. -/
theorem initPool_fails_iff_zero_started_witness :
    (⟨3, [2], [2]⟩ : PoolState).available.length =
      ((List.range 3).filter (fun i => decide (i = 2))).length ∧
    1 ≤ (⟨3, [2], [2]⟩ : PoolState).available.length :=
  (initPool_fails_iff_zero_started 3 (fun i => decide (i = 2))).2
    ⟨3, [2], [2]⟩ (by rfl)

theorem initPoolLoop_allOk (l procs avail : List Nat) :
    initPoolLoop (fun _ => true) l procs avail = (procs ++ l, avail ++ l) := by
  induction l generalizing procs avail with
  | nil => simp [initPoolLoop]
  | cons i is ih => simp [initPoolLoop, ih]

/-- C6: for every capacity at least 1, when all worker starts succeed,
initialization returns a pool whose available queue holds exactly
`capacity` workers. -/
theorem initPool_allOk_available_length (capacity : Nat) (h : 1 ≤ capacity) :
    ∃ st, initPool capacity (fun _ => true) = .ok st ∧
      st.available.length = capacity := by
  refine ⟨⟨capacity, List.range capacity, List.range capacity⟩, ?_, by simp⟩
  have hne : List.range capacity ≠ [] := by
    intro he
    have := List.length_range capacity
    rw [he] at this
    simp at this
    omega
  simp [initPool, initPoolLoop_allOk, hne]

/-- Witness for C6 at capacity 3. -/
theorem initPool_allOk_available_length_witness :
    ∃ st, initPool 3 (fun _ => true) = .ok st ∧ st.available.length = 3 :=
  initPool_allOk_available_length 3 (by decide)

/-- C2 counterexample: when standard output reaches end-of-stream before any
delimiter line, `execute_command` does NOT fail; it breaks out of the read
loop and completes normally, yielding the (empty) buffered output.  No
protocol-violation error exists anywhere in the code (`ExecError` lists
every exception `execute_command` can raise). -/
theorem execute_command_eof_counterexample :
    executeCommand delim0 true false 60 [RdEvent.eof] none =
      ⟨[([], [])], none, noProcActions⟩ := by decide

/-- C2 (amended): whenever the read loop observes end-of-stream before a
delimiter line, it breaks and `execute_command` completes normally with the
buffered content (no error is raised).  Since the stderr-drain defect aborts
the command on every earlier content line, end-of-stream is only ever
observed as the first read, with an empty buffer. -/
theorem execute_command_eof_completes (d : List Char) (stream : Bool)
    (tSecs : Nat) (rest : List RdEvent)
    (comm : Option (List Char × List Char)) :
    executeCommand d true stream tSecs (.eof :: rest) comm =
      ⟨if stream then [] else [([], [])], none, noProcActions⟩ := by
  cases stream <;> rfl

/-- C3: when the standard-output read times out, `execute_command` performs
a best-effort stderr read bounded by `STDERR_DRAIN_BOUND` (= 1 second),
fails with a timeout error carrying the caller-supplied timeout value, and
performs no kill or terminate on the subprocess (`noProcActions`); in
streaming mode the `communicate()` fallback of the outer exception handler
additionally yields the drained pipes before re-raising. -/
theorem execute_command_timeout_no_kill (d : List Char) (stream : Bool)
    (tSecs : Nat) (r : Nat) (sd : List Char) (rest : List RdEvent)
    (comm : Option (List Char × List Char)) :
    executeCommand d true stream tSecs (.stdoutTimeout r sd :: rest) comm =
      ⟨if stream then commYields comm else [],
       some (.commandTimeout tSecs
         (if r ≤ STDERR_DRAIN_BOUND && !sd.isEmpty then some (pyStrip sd) else none)),
       noProcActions⟩ := by
  cases stream <;> rfl

/-- C4: evaluating `execute_command` on a run whose stdout produces a
content line followed by the delimiter line.  Instead of continuing the
read loop to the delimiter, the call aborts with the `AttributeError`
raised by the un-awaited `stderr.read(1024)` right after buffering the
first line, and yields nothing. -/
theorem execute_command_content_line_attr_error :
    executeCommand delim0 true false 60
      [RdEvent.line ("hello".toList), RdEvent.line delim0] none =
      ⟨[], some .attrErrorNoDecode, noProcActions⟩ := by decide

/-- C9: in non-streaming mode, whenever `execute_command` completes without
raising, it yields exactly one (stdout, stderr) pair, whose stdout is the
per-line whitespace-stripped buffered lines joined with newlines and then
stripped (and whose stderr is empty). -/
theorem execute_command_single_yield (d : List Char) (tSecs : Nat)
    (events : List RdEvent) (comm : Option (List Char × List Char))
    (h : (executeCommand d true false tSecs events comm).error = none) :
    (executeCommand d true false tSecs events comm).yields =
      [(pyStrip (joinNL (claimBufferedLines d events)), [])] := by
  cases events with
  | nil => simp [executeCommand, execLoop] at h
  | cons e rest =>
    cases e with
    | eof => rfl
    | stdoutTimeout r sd => simp [executeCommand, execLoop] at h
    | line raw =>
      cases hd0 : containsSub d (pyStrip raw) with
      | false =>
        exfalso
        simp only [executeCommand, execLoop, hd0, Bool.false_eq_true,
          if_false, ite_false] at h
        simp at h
      | true =>
        cases hc0 : (pyStrip (pyReplace d [] (pyStrip raw))).isEmpty with
        | true =>
          simp only [executeCommand, execLoop, claimBufferedLines, hd0, hc0,
            if_true, ite_true]
          rfl
        | false =>
          simp only [executeCommand, execLoop, claimBufferedLines, hd0, hc0,
            if_true, ite_true, Bool.false_eq_true, if_false, ite_false]
          rfl

/-- Witness for C9 on a concrete single-line run ending in the delimiter. -/
theorem execute_command_single_yield_witness :
    (executeCommand delim0 true false 60
        [RdEvent.line ("  answer: 7  ".toList ++ delim0)] none).yields =
      [(pyStrip (joinNL (claimBufferedLines delim0
          [RdEvent.line ("  answer: 7  ".toList ++ delim0)])), [])] :=
  execute_command_single_yield delim0 60
    [RdEvent.line ("  answer: 7  ".toList ++ delim0)] none (by decide)

/-- C7 counterexample: `sanitize` is NOT idempotent.  On
`"\x1b\x1b[31mA"` the first pass removes only the complete color sequence,
leaving a bare escape character adjacent to the letter; a second pass then
matches `escape A` as a standard two-character ANSI escape and removes it
as well (re.sub does not rescan removal-induced adjacencies within one
pass, but a second call does). -/
theorem advanced_ansi_cleaning_not_idempotent :
    advanced_ansi_cleaning
        (advanced_ansi_cleaning ("\x1b\x1b[31mA".toList)) ≠
      advanced_ansi_cleaning ("\x1b\x1b[31mA".toList) := by decide

theorem mGuard_eq_none (core : List Char → Option Nat) (c : Char)
    (rest : List Char) (hc : c ≠ escChar) : mGuard core (c :: rest) = none := by
  simp [mGuard, hc]

theorem subAux_escFree (m : List Char → Option Nat)
    (hm : ∀ c rest, c ≠ escChar → m (c :: rest) = none) :
    ∀ (n : Nat) (l : List Char), escChar ∉ l → subAux m n l = l := by
  intro n
  induction n with
  | zero => intro l _; cases l <;> rfl
  | succ n ih =>
    intro l h
    cases l with
    | nil => rfl
    | cons c rest =>
      have hc : c ≠ escChar := fun he => h (he ▸ List.mem_cons_self c rest)
      have hr : escChar ∉ rest := fun hmem => h (List.mem_cons_of_mem c hmem)
      simp [subAux, hm c rest hc, ih rest hr]

theorem reSub_escFree (m : List Char → Option Nat)
    (hm : ∀ c rest, c ≠ escChar → m (c :: rest) = none)
    (l : List Char) (h : escChar ∉ l) : reSub m l = l :=
  subAux_escFree m hm l.length l h

/-- A string without the escape character is a fixed point of the cleaner:
every pattern must match the escape character first. -/
theorem advanced_escFree (l : List Char) (h : escChar ∉ l) :
    advanced_ansi_cleaning l = l := by
  have g : ∀ core (x : List Char), escChar ∉ x → reSub (mGuard core) x = x :=
    fun core x hx =>
      reSub_escFree _ (fun c r hc => mGuard_eq_none core c r hc) x hx
  unfold advanced_ansi_cleaning
  simp only [ansiPatternCores, List.foldl]
  rw [g m1core l h, g m2core l h, g m3core l h, g m4core l h, g m5core l h,
    g m6core l h, g m7core l h, g m8core l h, g mFbCore l h]

/-- C7 (amended): `sanitize` is total (a total Lean function embeds it),
but idempotent only on inputs whose sanitized form is free of the escape
character — which the counterexample shows is not always the case.  On
escape-free results a second application is the identity. -/
theorem advanced_ansi_cleaning_idempotent_on_esc_free (s : List Char)
    (h : escChar ∉ advanced_ansi_cleaning s) :
    advanced_ansi_cleaning (advanced_ansi_cleaning s) =
      advanced_ansi_cleaning s :=
  advanced_escFree _ h

/-- Witness for the amended C7 on the specification's own scenario string. -/
theorem advanced_ansi_cleaning_idempotent_witness :
    advanced_ansi_cleaning
        (advanced_ansi_cleaning ("\x1b[38;2;255;0;0mHello\x1b[39m".toList)) =
      advanced_ansi_cleaning ("\x1b[38;2;255;0;0mHello\x1b[39m".toList) :=
  advanced_ansi_cleaning_idempotent_on_esc_free
    ("\x1b[38;2;255;0;0mHello\x1b[39m".toList) (by decide)

/-- Sanity: the specification's sanitizer scenario (spec section 8). -/
theorem advanced_ansi_cleaning_rgb_example :
    advanced_ansi_cleaning ("\x1b[38;2;255;0;0mHello\x1b[39m".toList) =
      "Hello".toList := by decide

/-- Sanity: a string of pure, well-formed control sequences cleans to
the empty string. -/
theorem advanced_ansi_cleaning_pure_control :
    advanced_ansi_cleaning ("\x1b[31m\x1b[2K\x1b[1A\x1b[G".toList) = [] := by
  decide

/-- Sanity: the smart variant drops boilerplate banner lines. -/
theorem smart_content_extraction_drops_boilerplate :
    smart_content_extraction
        ("\x1b[38;2;191;189;182mTips for getting started:\x1b[39m".toList) =
      [] := by decide

/-- The smart variant inherits the non-idempotence of the cleaner. -/
theorem smart_content_extraction_not_idempotent :
    smart_content_extraction
        (smart_content_extraction ("\x1b\x1b[31mA".toList)) ≠
      smart_content_extraction ("\x1b\x1b[31mA".toList) := by decide

theorem splitNL_of_no_newline (l : List Char) (h : '\n' ∉ l) :
    splitNL l = [l] := by
  induction l with
  | nil => rfl
  | cons c rest ih =>
    have hc : c ≠ '\n' := fun he => h (he ▸ List.mem_cons_self c rest)
    have hr : '\n' ∉ rest := fun hm => h (List.mem_cons_of_mem c hm)
    simp [splitNL, hc, ih hr]

theorem chunkerRun_no_newline (cs : List (List Char)) :
    ∀ buf : List Char, [] ∉ cs → '\n' ∉ buf ++ joinAll cs →
      chunkerRun buf cs = chunkFlush (buf ++ joinAll cs) := by
  induction cs with
  | nil =>
    intro buf _ _
    simp [chunkerRun, joinAll]
  | cons c cs ih =>
    intro buf hne hnl
    have hcne : c ≠ [] := fun he => hne (he ▸ List.mem_cons_self c cs)
    have hce : c.isEmpty = false := by
      cases c with
      | nil => exact absurd rfl hcne
      | cons a as => rfl
    have hnl2 : '\n' ∉ (buf ++ c) ++ joinAll cs := by
      intro hm
      apply hnl
      rw [joinAll, ← List.append_assoc]
      exact hm
    have hnlbc : '\n' ∉ buf ++ c := by
      intro hm
      exact hnl2 (List.mem_append_left _ hm)
    have hsplit : splitNL (buf ++ c) = [buf ++ c] :=
      splitNL_of_no_newline _ hnlbc
    have hne2 : [] ∉ cs := fun hm => hne (List.mem_cons_of_mem c hm)
    rw [chunkerRun, hce]
    have hlast : ([buf ++ c] : List (List Char)).getLastD [] = buf ++ c := rfl
    simp only [Bool.false_eq_true, if_false, hsplit, List.dropLast_single,
      hlast, List.map_nil, List.filter_nil, List.nil_append]
    rw [ih (buf ++ c) hne2 hnl2, joinAll, ← List.append_assoc]

/-- C8: for the input "hello, world!" delivered as any sequence of
non-empty reads, the chunker emits fragments whose in-order concatenation
reconstructs the input exactly (here: one final flushed fragment, since
the input contains no newline). -/
theorem chunker_reconstructs_hello_world (cs : List (List Char))
    (hne : [] ∉ cs) (hcat : joinAll cs = "hello, world!".toList) :
    joinAll (execute_prompt_stream_chunks cs) = "hello, world!".toList := by
  have h1 : '\n' ∉ ([] : List Char) ++ joinAll cs := by
    rw [List.nil_append, hcat]
    decide
  have h2 := chunkerRun_no_newline cs [] hne h1
  rw [List.nil_append] at h2
  rw [execute_prompt_stream_chunks, h2, hcat]
  decide

/-- Witness for C8: the input delivered as a single read. -/
theorem chunker_reconstructs_hello_world_witness :
    joinAll (execute_prompt_stream_chunks ["hello, world!".toList]) =
      "hello, world!".toList :=
  chunker_reconstructs_hello_world ["hello, world!".toList]
    (by decide) (by decide)

/-- C1: on every execution in which `acquire_process` returns a worker,
`release_process` is called on that worker exactly once before the handler
finishes — on the normal return path, on the streaming early-return path,
on timeout, and on every raised exception (the environment ranges over all
of them). -/
theorem chat_completions_releases_once (env : HandlerEnv) (w : Nat)
    (h : env.acquired = some w) :
    (chat_completions env).releases = [w] := by
  simp [chat_completions, h]

/-- Witness for C1 on a concrete successful non-streaming execution. -/
theorem chat_completions_releases_once_witness :
    (chat_completions
        ⟨some 0, false, .ok ([], []), .ok ("hi".toList, []), .ok ([], []),
          false⟩).releases = [0] :=
  chat_completions_releases_once
    ⟨some 0, false, .ok ([], []), .ok ("hi".toList, []), .ok ([], []),
      false⟩ 0 rfl

/-- C10: a non-streaming request whose user-message concatenation is
whitespace-only is rejected before the CLI subprocess is invoked
(`cliInvoked = false`), but with HTTP status 500, not 400: the blanket
`except Exception` catches the handler's own `HTTPException(400)` and
re-wraps it as an internal error. -/
theorem chat_completions_simple_empty_prompt_rewrapped :
    chat_completions_simple true
        ⟨"gemini-cli".toList, [⟨"user".toList, "   ".toList⟩], false⟩
        (.ok ("unused".toList)) =
      ⟨.error 500, false⟩ := by decide
